import Mathlib

/-!
Shallow embedding of the retrieval core in `rag_core.py`: the hybrid
retriever's merge (`_HybridRetriever._get_relevant_documents`), retriever
construction (`_create_retriever`), the meta-question classifier and PDF
listing (`_is_question_about_pdfs_in_base`, `_list_pdfs_in_base`), the
question-answering routing (`answer_question`), and the index build
(`_build_vectorstore`) as a state transformer on the persisted directory.
-/

namespace RagCore

/-- The retrieval budget `RETRIEVER_K = 8` in `rag_core.py`. -/
def RETRIEVER_K : Nat := 8

/-- A retrieved chunk: its `page_content` plus the `source` and `filename`
metadata fields. `metadata.get(key, "")` returns the empty string for an
absent field, so both fields are total strings. -/
structure Doc where
  page_content : String
  source : String
  filename : String
deriving DecidableEq, Repr

/-- Deduplication identity used by the `_add` closure in
`_HybridRetriever._get_relevant_documents`:
`(doc.page_content[:100], doc.metadata.get("source", ""))`. -/
def dedupKey (d : Doc) : String × String :=
  (d.page_content.take 100, d.source)

/-- One call of `_add doc`: if the key is in `seen` do nothing, otherwise
record the key and append the document to `result`. The state is the pair
`(seen, result)`; `seen` is modelled as a list of keys. -/
def addDoc (acc : List (String × String) × List Doc) (d : Doc) :
    List (String × String) × List Doc :=
  if dedupKey d ∈ acc.1 then acc else (dedupKey d :: acc.1, acc.2 ++ [d])

/-- Embedding of `_HybridRetriever._get_relevant_documents` as a function of the two
branch result lists (the two futures joined): `_add` each of the first
`k // 2` semantic results, then each of the first `k - len(result)` keyword
results, and return `result[:k]`. -/
def getRelevantDocuments (k : Nat) (sem bm25 : List Doc) : List Doc :=
  let acc1 := (sem.take (k / 2)).foldl addDoc ([], [])
  let acc2 := (bm25.take (k - acc1.2.length)).foldl addDoc acc1
  acc2.2.take k

/-- The keyword phase as the specification words it: walk the keyword
results in their returned order, skip any document whose key was already
added, and stop as soon as the combined count reaches `k`. -/
def specTakeKeyword (k : Nat) :
    List Doc → List (String × String) → List Doc → List Doc
  | [], _, res => res
  | d :: ds, seen, res =>
    if k ≤ res.length then res
    else if dedupKey d ∈ seen then specTakeKeyword k ds seen res
    else specTakeKeyword k ds (dedupKey d :: seen) (res ++ [d])

/-- The whole merge as claim C1 words it: up to `k / 2` deduplicated
semantic results, then keyword results until the combined count reaches
`k`, skipping already-added identities. -/
def mergeSpecClaimed (k : Nat) (sem bm25 : List Doc) : List Doc :=
  let acc1 := (sem.take (k / 2)).foldl addDoc ([], [])
  specTakeKeyword k bm25 acc1.1 acc1.2

/-- The keyword phase as the code actually behaves: a quota of `k - s` raw
keyword results is scanned, every scanned result consumes the quota whether
or not it is added, and only fresh keys are appended. -/
def quotaTakeKeyword :
    Nat → List Doc → List (String × String) → List Doc → List Doc
  | 0, _, _, res => res
  | _ + 1, [], _, res => res
  | n + 1, d :: ds, seen, res =>
    if dedupKey d ∈ seen then quotaTakeKeyword n ds seen res
    else quotaTakeKeyword n ds (dedupKey d :: seen) (res ++ [d])

/-- The merge as amended for claim C1: the keyword quota is fixed at
`k - s` raw results (where `s` is the number of semantic entries kept) and
skipped duplicates still consume it. -/
def mergeSpecAmended (k : Nat) (sem bm25 : List Doc) : List Doc :=
  let acc1 := (sem.take (k / 2)).foldl addDoc ([], [])
  quotaTakeKeyword (k - acc1.2.length) bm25 acc1.1 acc1.2

/-- A short document used in concrete evaluations: content `s`, source and
filename `s ++ ".pdf"`. Distinct short contents give distinct dedup keys. -/
def mkDoc (s : String) : Doc :=
  ⟨s, s ++ ".pdf", s ++ ".pdf"⟩

/-- Nine keyword-branch results whose first two share a dedup key. -/
def c1kw : List Doc :=
  [mkDoc "a", mkDoc "a", mkDoc "b", mkDoc "c", mkDoc "d", mkDoc "e",
   mkDoc "f", mkDoc "g", mkDoc "h"]

theorem foldl_addDoc_take_eq_quota (l : List Doc) :
    ∀ (n : Nat) (acc : List (String × String) × List Doc),
      ((l.take n).foldl addDoc acc).2 = quotaTakeKeyword n l acc.1 acc.2 := by
  induction l with
  | nil =>
    intro n acc
    cases n <;> simp [quotaTakeKeyword]
  | cons d ds ih =>
    intro n acc
    cases n with
    | zero => simp [quotaTakeKeyword]
    | succ m =>
      simp only [List.take_succ_cons, List.foldl_cons, quotaTakeKeyword]
      by_cases h : dedupKey d ∈ acc.1
      · rw [if_pos h]
        have hstep : addDoc acc d = acc := by simp [addDoc, h]
        rw [hstep, ih m acc]
      · rw [if_neg h]
        have hstep : addDoc acc d = (dedupKey d :: acc.1, acc.2 ++ [d]) := by
          simp [addDoc, h]
        rw [hstep, ih m _]

theorem length_foldl_addDoc_le (l : List Doc) :
    ∀ acc : List (String × String) × List Doc,
      (l.foldl addDoc acc).2.length ≤ acc.2.length + l.length := by
  induction l with
  | nil => intro acc; simp
  | cons d ds ih =>
    intro acc
    have h := ih (addDoc acc d)
    have hstep : (addDoc acc d).2.length ≤ acc.2.length + 1 := by
      by_cases h1 : dedupKey d ∈ acc.1 <;> simp [addDoc, h1]
    simp only [List.foldl_cons, List.length_cons]
    omega

theorem length_quotaTakeKeyword_le (l : List Doc) :
    ∀ (n : Nat) (seen : List (String × String)) (res : List Doc),
      (quotaTakeKeyword n l seen res).length ≤ res.length + n := by
  induction l with
  | nil => intro n seen res; cases n <;> simp [quotaTakeKeyword]
  | cons d ds ih =>
    intro n seen res
    cases n with
    | zero => simp [quotaTakeKeyword]
    | succ m =>
      by_cases h : dedupKey d ∈ seen
      · simp only [quotaTakeKeyword, if_pos h]
        have := ih m seen res
        omega
      · simp only [quotaTakeKeyword, if_neg h]
        have := ih m (dedupKey d :: seen) (res ++ [d])
        simp only [List.length_append, List.length_cons, List.length_nil] at this
        omega

theorem length_acc1_le (k : Nat) (sem : List Doc) :
    ((sem.take (k / 2)).foldl addDoc ([], [])).2.length ≤ k / 2 := by
  have h := length_foldl_addDoc_le (sem.take (k / 2)) ([], [])
  simp only [List.length_take, List.length_nil, Nat.zero_add] at h
  omega

/-- C1: the Hybrid Retriever's merge takes up to K/2 semantic results and
then scans only the first K - s raw keyword results (s = semantic entries
kept); keyword duplicates consume that quota, so the output need not reach
the combined count K even when further unique keyword results exist. This
settles the amended claim: the merge equals the quota-based specification. -/
theorem getRelevantDocuments_eq_mergeSpecAmended (sem bm25 : List Doc) :
    getRelevantDocuments RETRIEVER_K sem bm25 =
      mergeSpecAmended RETRIEVER_K sem bm25 := by
  simp only [getRelevantDocuments, mergeSpecAmended]
  rw [foldl_addDoc_take_eq_quota]
  apply List.take_of_length_le
  have h1 := length_acc1_le RETRIEVER_K sem
  have h2 := length_quotaTakeKeyword_le bm25
    (RETRIEVER_K - ((sem.take (RETRIEVER_K / 2)).foldl addDoc ([], [])).2.length)
    ((sem.take (RETRIEVER_K / 2)).foldl addDoc ([], [])).1
    ((sem.take (RETRIEVER_K / 2)).foldl addDoc ([], [])).2
  simp only [RETRIEVER_K] at h1 h2 ⊢
  omega

set_option maxRecDepth 4000 in
/-- C1 counterexample: with an empty semantic branch and nine keyword
results whose first two share a dedup key, the code returns 7 documents
(the duplicate consumed the quota) while the claimed take-until-count-K
procedure returns 8, so the merge is not the claimed procedure. -/
theorem getRelevantDocuments_ne_mergeSpecClaimed :
    getRelevantDocuments RETRIEVER_K [] c1kw ≠
      mergeSpecClaimed RETRIEVER_K [] c1kw := by
  decide

theorem foldl_addDoc_nodup (l : List Doc) :
    ∀ acc : List (String × String) × List Doc,
      (acc.2.map dedupKey).Nodup → (∀ p ∈ acc.2.map dedupKey, p ∈ acc.1) →
      ((l.foldl addDoc acc).2.map dedupKey).Nodup ∧
        ∀ p ∈ (l.foldl addDoc acc).2.map dedupKey, p ∈ (l.foldl addDoc acc).1 := by
  induction l with
  | nil => intro acc h1 h2; exact ⟨h1, h2⟩
  | cons d ds ih =>
    intro acc h1 h2
    simp only [List.foldl_cons]
    by_cases h : dedupKey d ∈ acc.1
    · have hstep : addDoc acc d = acc := by simp [addDoc, h]
      rw [hstep]; exact ih acc h1 h2
    · have hstep : addDoc acc d = (dedupKey d :: acc.1, acc.2 ++ [d]) := by
        simp [addDoc, h]
      rw [hstep]
      apply ih
      · simp only [List.map_append, List.map_cons, List.map_nil,
          List.nodup_append, List.nodup_cons, List.nodup_nil]
        refine ⟨h1, by simp, ?_⟩
        intro p hp hpd
        simp only [List.mem_cons, List.not_mem_nil, or_false] at hpd
        exact h (hpd ▸ h2 p hp)
      · intro p hp
        simp only [List.map_append, List.map_cons, List.map_nil,
          List.mem_append, List.mem_cons, List.not_mem_nil, or_false] at hp
        rcases hp with hp | hp
        · exact List.mem_cons_of_mem _ (h2 p hp)
        · exact hp ▸ List.mem_cons_self _ _

/-- C2: no two documents in the Hybrid Retriever's output share a
deduplication identity: the list of keys of the output has no duplicate. -/
theorem getRelevantDocuments_dedup (k : Nat) (sem bm25 : List Doc) :
    ((getRelevantDocuments k sem bm25).map dedupKey).Nodup := by
  unfold getRelevantDocuments
  have h1 := foldl_addDoc_nodup (sem.take (k / 2)) ([], []) (by simp) (by simp)
  have h2 := foldl_addDoc_nodup
    (bm25.take (k - ((sem.take (k / 2)).foldl addDoc ([], [])).2.length))
    ((sem.take (k / 2)).foldl addDoc ([], [])) h1.1 h1.2
  rw [List.map_take]
  exact List.Nodup.sublist (List.take_sublist _ _) h2.1

/-- C3: the Hybrid Retriever's output never exceeds the budget k, whatever
the two branches return. -/
theorem getRelevantDocuments_length_le (k : Nat) (sem bm25 : List Doc) :
    (getRelevantDocuments k sem bm25).length ≤ k := by
  unfold getRelevantDocuments
  simp only [List.length_take]
  omega

theorem foldl_addDoc_fresh (l : List Doc) :
    ∀ (seen : List (String × String)) (res : List Doc),
      (∀ d ∈ l, dedupKey d ∉ seen) → (l.map dedupKey).Nodup →
      (l.foldl addDoc (seen, res)).2 = res ++ l := by
  induction l with
  | nil => intro seen res _ _; simp
  | cons d ds ih =>
    intro seen res hfresh hnodup
    simp only [List.foldl_cons]
    have h : dedupKey d ∉ seen := hfresh d (List.mem_cons_self _ _)
    have hstep : addDoc (seen, res) d = (dedupKey d :: seen, res ++ [d]) := by
      simp [addDoc, h]
    simp only [List.map_cons, List.nodup_cons] at hnodup
    rw [hstep, ih (dedupKey d :: seen) (res ++ [d]) ?_ hnodup.2]
    · simp
    · intro d' hd'
      simp only [List.mem_cons, not_or]
      refine ⟨?_, hfresh d' (List.mem_cons_of_mem _ hd')⟩
      intro hkey
      exact hnodup.1 (hkey ▸ List.mem_map_of_mem dedupKey hd')

theorem foldl_addDoc_extends (l : List Doc) :
    ∀ acc : List (String × String) × List Doc,
      ∃ t, (l.foldl addDoc acc).2 = acc.2 ++ t := by
  induction l with
  | nil => intro acc; exact ⟨[], by simp⟩
  | cons d ds ih =>
    intro acc
    simp only [List.foldl_cons]
    by_cases h : dedupKey d ∈ acc.1
    · have hstep : addDoc acc d = acc := by simp [addDoc, h]
      rw [hstep]; exact ih acc
    · have hstep : addDoc acc d = (dedupKey d :: acc.1, acc.2 ++ [d]) := by
        simp [addDoc, h]
      obtain ⟨t, ht⟩ := ih (addDoc acc d)
      refine ⟨[d] ++ t, ?_⟩
      rw [ht, hstep]
      simp

/-- C4 (amended): when the two branches share no dedup identity and the
semantic branch itself has pairwise-distinct identities, the first
min(k/2, len(sem)) entries of the merged output are exactly the semantic
results in order. -/
theorem getRelevantDocuments_semantic_first (k : Nat) (sem bm25 : List Doc)
    (hnd : (sem.map dedupKey).Nodup)
    (hdisj : ∀ x ∈ sem, ∀ y ∈ bm25, dedupKey x ≠ dedupKey y) :
    (getRelevantDocuments k sem bm25).take (min (k / 2) sem.length) =
      sem.take (min (k / 2) sem.length) := by
  simp only [getRelevantDocuments]
  have hacc1 : ((sem.take (k / 2)).foldl addDoc ([], [])).2 = sem.take (k / 2) := by
    have := foldl_addDoc_fresh (sem.take (k / 2)) [] []
      (by intro d _; exact List.not_mem_nil _)
      (by rw [List.map_take]; exact List.Nodup.sublist (List.take_sublist _ _) hnd)
    simpa using this
  obtain ⟨t, ht⟩ := foldl_addDoc_extends
    (bm25.take (k - ((sem.take (k / 2)).foldl addDoc ([], [])).2.length))
    ((sem.take (k / 2)).foldl addDoc ([], []))
  rw [ht, hacc1, List.take_take]
  have hm : min (min (k / 2) sem.length) k = min (k / 2) sem.length := by omega
  rw [hm]
  have hlen : (sem.take (k / 2)).length = min (k / 2) sem.length :=
    List.length_take _ _
  rw [← hlen, List.take_left, hlen]
  rcases Nat.le_total (k / 2) sem.length with hle | hle
  · rw [min_eq_left hle]
  · rw [min_eq_right hle, List.take_of_length_le hle,
      List.take_of_length_le (Nat.le_refl _)]

set_option maxRecDepth 4000 in
/-- C4 counterexample: the branches share no dedup identity, yet because
the semantic branch repeats a document the first min(k/2, len(sem)) = 2
entries of the merged output are not the semantic output in order. -/
theorem getRelevantDocuments_semantic_first_cex :
    (∀ x ∈ [mkDoc "a", mkDoc "a"], ∀ y ∈ [mkDoc "b"], dedupKey x ≠ dedupKey y) ∧
    (getRelevantDocuments RETRIEVER_K [mkDoc "a", mkDoc "a"] [mkDoc "b"]).take
        (min (RETRIEVER_K / 2) ([mkDoc "a", mkDoc "a"] : List Doc).length) ≠
      ([mkDoc "a", mkDoc "a"] : List Doc).take
        (min (RETRIEVER_K / 2) ([mkDoc "a", mkDoc "a"] : List Doc).length) := by
  decide

/-- Embedding of `_create_retriever(vectorstore, chunks, use_hybrid)`, returning the
retriever as its `invoke` function. `semanticSearch q k` models
`vectorstore.as_retriever(search_kwargs=\x7b"k": k\x7d).invoke(q)`;
`bm25FromDocuments cs k` models `BM25Retriever.from_documents(cs, k=k)`,
with `none` for a raised exception (caught by the `except: pass`). A `None`
or empty chunk list is falsy in Python, so both skip the hybrid branch. -/
def createRetriever (semanticSearch : String → Nat → List Doc)
    (bm25FromDocuments : List Doc → Nat → Option (String → List Doc))
    (chunks : Option (List Doc)) (useHybrid : Bool) : String → List Doc :=
  let semanticRetriever := fun q => semanticSearch q RETRIEVER_K
  match chunks with
  | some cs =>
    if useHybrid && !cs.isEmpty then
      match bm25FromDocuments cs (RETRIEVER_K / 2) with
      | some bm25 => fun q =>
          getRelevantDocuments RETRIEVER_K (semanticRetriever q) (bm25 q)
      | none => semanticRetriever
    else semanticRetriever
  | none => semanticRetriever

/-- C5: when the keyword index is unavailable (no chunk list, or BM25
construction raises), the retriever `_create_retriever` returns is the
plain semantic retriever with budget K: its invoke on any query is the
semantic search at k = RETRIEVER_K. -/
theorem createRetriever_degrades_to_semantic
    (semanticSearch : String → Nat → List Doc)
    (bm25FromDocuments : List Doc → Nat → Option (String → List Doc))
    (chunks : Option (List Doc)) (q : String)
    (h : chunks = none ∨
      ∃ cs, chunks = some cs ∧ bm25FromDocuments cs (RETRIEVER_K / 2) = none) :
    createRetriever semanticSearch bm25FromDocuments chunks true q =
      semanticSearch q RETRIEVER_K := by
  rcases h with h | ⟨cs, hcs, hb⟩
  · subst h; rfl
  · subst hcs
    simp only [createRetriever]
    by_cases he : cs.isEmpty
    · simp [he]
    · simp [he, hb]

/-- Witness for C5: a concrete semantic search, a BM25 construction that
fails, and a nonempty chunk list; the theorem applied at them. -/
theorem createRetriever_degrades_to_semantic_witness :
    createRetriever (fun _ _ => [mkDoc "a"]) (fun _ _ => none)
        (some [mkDoc "c"]) true "q" =
      (fun _ _ => [mkDoc "a"] : String → Nat → List Doc) "q" RETRIEVER_K :=
  createRetriever_degrades_to_semantic (fun _ _ => [mkDoc "a"]) (fun _ _ => none)
    (some [mkDoc "c"]) "q" (Or.inr ⟨[mkDoc "c"], rfl, rfl⟩)

set_option maxRecDepth 4000 in
/-- Witness for C4: concrete disjoint branches with a duplicate-free
semantic list, the theorem applied at them. -/
theorem getRelevantDocuments_semantic_first_witness :
    (([mkDoc "a"] : List Doc).map dedupKey).Nodup ∧
    (getRelevantDocuments RETRIEVER_K [mkDoc "a"] [mkDoc "b"]).take
        (min (RETRIEVER_K / 2) ([mkDoc "a"] : List Doc).length) =
      ([mkDoc "a"] : List Doc).take
        (min (RETRIEVER_K / 2) ([mkDoc "a"] : List Doc).length) :=
  ⟨by decide, getRelevantDocuments_semantic_first RETRIEVER_K [mkDoc "a"] [mkDoc "b"]
    (by decide) (by decide)⟩

/-- Whether `needle` occurs at the start of `hay` (character lists). -/
def startsWithSeq : List Char → List Char → Bool
  | [], _ => true
  | _ :: _, [] => false
  | a :: as, b :: bs => a == b && startsWithSeq as bs

/-- Whether `needle` occurs contiguously anywhere in `hay`: the model of
Python's `needle in hay` on strings. -/
def containsSeq (needle : List Char) : List Char → Bool
  | [] => startsWithSeq needle []
  | b :: bs => startsWithSeq needle (b :: bs) || containsSeq needle bs

/-- Python's `t in s` for strings. -/
def pyIn (t s : String) : Bool :=
  containsSeq t.data s.data

/-- The frozenset `_TERMOS_BASE` in `rag_core.py`. -/
def TERMOS_BASE : List String :=
  ["na base", "na pasta", "na pasta base", "base de"]

/-- The frozenset `_TERMOS_ARQUIVO` in `rag_core.py`. -/
def TERMOS_ARQUIVO : List String :=
  ["pdf", "pdfs", "arquivo", "arquivos", "documento", "documentos"]

/-- Python's `s.lower()`: every character mapped to lower case. -/
def lowerStr (s : String) : String :=
  ⟨s.data.map Char.toLower⟩

/-- Python's `s.strip()`: leading and trailing whitespace removed. -/
def stripStr (s : String) : String :=
  ⟨((s.data.dropWhile Char.isWhitespace).reverse.dropWhile
      Char.isWhitespace).reverse⟩

/-- Embedding of `_is_question_about_pdfs_in_base(question)`. -/
def isQuestionAboutPdfsInBase (question : String) : Bool :=
  let q := stripStr (lowerStr question)
  let temBase := TERMOS_BASE.any (fun t => pyIn t q) ||
    (pyIn "base" q && (pyIn "esta" q || pyIn "tem" q))
  let temArquivo := TERMOS_ARQUIVO.any (fun t => pyIn t q) ||
    pyIn "quais" q || pyIn "lista" q
  temBase && (temArquivo || pyIn "quais" q || pyIn "lista" q || pyIn "o que" q)

/-- The corpus directory as the code observes it: the printable resolved
path, whether it exists, and the sorted recursive `*.pdf` glob results
(file base names). -/
structure PdfDir where
  resolvedName : String
  dirExists : Bool
  pdfFiles : List String
deriving DecidableEq, Repr

/-- Embedding of `_list_pdfs_in_base(pdf_dir)`: the answer text and the (always empty)
source list. -/
def listPdfsInBase (pd : PdfDir) : String × List Doc :=
  if !pd.dirExists then
    ("A pasta Base nao foi encontrada em " ++ pd.resolvedName ++ ".", [])
  else if pd.pdfFiles.isEmpty then
    ("Nenhum arquivo PDF encontrado na pasta Base.", [])
  else
    let linhas := pd.pdfFiles.enum.map fun ip =>
      toString (ip.1 + 1) ++ ". " ++ ip.2
    ("Os seguintes " ++ toString pd.pdfFiles.length ++
      " arquivo(s) PDF estao na base:\n\n" ++ String.intercalate "\n" linhas, [])

/-- The two vector-store searches `answer_question` uses:
`similarity_search(q, k, filter=\x7b"filename": \x7b"$eq": fs\x7d\x7d)`, which may
raise (`none`), and the plain `similarity_search(q, k)`. -/
structure VectorStoreOps where
  filteredSearch : String → Nat → String → Option (List Doc)
  search : String → Nat → List Doc

/-- The outcome of `answer_question`: the PDF-listing branch, the fixed
"Nenhum trecho relevante encontrado" message with no sources, or an
LLM-generated answer grounded on the selected documents (returned as the
source list). -/
inductive Answer where
  | listing (text : String)
  | nothingFound
  | answered (docs : List Doc)
deriving DecidableEq, Repr

/-- The source-document list each outcome returns. -/
def Answer.sources : Answer → List Doc
  | .listing _ => []
  | .nothingFound => []
  | .answered docs => docs

/-- The document-selection step of `answer_question`: the filtered branch
runs only when `filter_source` and `vectorstore` are both truthy (a `None`
or empty-string filter and a `None` store are falsy); there, the exact
metadata filter is tried first (an exception yields `[]`), and an empty
result falls back to an unfiltered `2 * K` search filtered client-side by
`filter_source in source or filename == filter_source`, truncated to `K`.
Otherwise `retriever.invoke(question)` is used. -/
def selectDocs (question : String) (retrieverInvoke : String → List Doc)
    (filter_source : Option String) (vectorstore : Option VectorStoreOps) :
    List Doc :=
  match filter_source, vectorstore with
  | some fs, some vs =>
    if fs == "" then retrieverInvoke question
    else
      let docs0 := (vs.filteredSearch question RETRIEVER_K fs).getD []
      if docs0.isEmpty then
        ((vs.search question (RETRIEVER_K * 2)).filter fun d =>
          pyIn fs d.source || d.filename == fs).take RETRIEVER_K
      else docs0
  | _, _ => retrieverInvoke question

/-- Embedding of `answer_question`, modelled up to its outcome: the meta-question branch
returns the corpus listing with no sources and consults neither retriever
nor store nor LLM; otherwise documents are selected and an empty selection
yields the fixed "nothing found" answer instead of an LLM call. -/
def answer_question (question : String) (retrieverInvoke : String → List Doc)
    (pdfDir : PdfDir) (filter_source : Option String)
    (vectorstore : Option VectorStoreOps) : Answer :=
  if isQuestionAboutPdfsInBase question then
    .listing (listPdfsInBase pdfDir).1
  else
    let docs := selectDocs question retrieverInvoke filter_source vectorstore
    if docs.isEmpty then .nothingFound else .answered docs

/-- C9: any question the classifier marks as a corpus meta-question is
answered by the literal PDF listing with an empty source list, for every
retriever, filter and vector store, so neither searcher nor the language
model can influence the outcome. -/
theorem answer_question_meta (question : String)
    (h : isQuestionAboutPdfsInBase question = true)
    (retrieverInvoke : String → List Doc) (pdfDir : PdfDir)
    (filter_source : Option String) (vectorstore : Option VectorStoreOps) :
    answer_question question retrieverInvoke pdfDir filter_source vectorstore =
      .listing (listPdfsInBase pdfDir).1 ∧
    (answer_question question retrieverInvoke pdfDir filter_source
        vectorstore).sources = [] := by
  simp [answer_question, h, Answer.sources]

set_option maxRecDepth 8000 in
/-- Witness for C9: the literal query of Scenario B, a nonempty corpus and
an arbitrary retriever; the theorem applied there. -/
theorem answer_question_meta_witness :
    isQuestionAboutPdfsInBase "quais pdfs estao na base" = true ∧
    (answer_question "quais pdfs estao na base" (fun _ => [mkDoc "a"])
        ⟨"/Base", true, ["ContratoX.pdf"]⟩ none none =
      .listing (listPdfsInBase ⟨"/Base", true, ["ContratoX.pdf"]⟩).1 ∧
    (answer_question "quais pdfs estao na base" (fun _ => [mkDoc "a"])
        ⟨"/Base", true, ["ContratoX.pdf"]⟩ none none).sources = []) :=
  ⟨by decide, answer_question_meta "quais pdfs estao na base" (by decide)
    (fun _ => [mkDoc "a"]) ⟨"/Base", true, ["ContratoX.pdf"]⟩ none none⟩

/-- C10: when no vector store is passed, a filter is silently ignored:
the outcome equals the unfiltered call for every question and filter,
and the documents come from the plain retriever path. -/
theorem answer_question_filter_ignored_without_store (question : String)
    (retrieverInvoke : String → List Doc) (pdfDir : PdfDir) (fs : String) :
    answer_question question retrieverInvoke pdfDir (some fs) none =
      answer_question question retrieverInvoke pdfDir none none := by
  rfl

/-- C6: with an active source filter and a store whose exact-filter search
raises or returns nothing, the outcome is determined by the unfiltered
2 * K search filtered client-side (source contains the filter string, or
filename equals it) and truncated to K; an empty final list yields the
fixed "nothing found" answer rather than an error. -/
theorem answer_question_filter_fallback (question : String)
    (retrieverInvoke : String → List Doc) (pdfDir : PdfDir) (fs : String)
    (vs : VectorStoreOps)
    (hmeta : isQuestionAboutPdfsInBase question = false)
    (hfs : fs ≠ "")
    (hfail : vs.filteredSearch question RETRIEVER_K fs = none ∨
      vs.filteredSearch question RETRIEVER_K fs = some []) :
    answer_question question retrieverInvoke pdfDir (some fs) (some vs) =
      if (((vs.search question (RETRIEVER_K * 2)).filter fun d =>
            pyIn fs d.source || d.filename == fs).take RETRIEVER_K).isEmpty
      then Answer.nothingFound
      else Answer.answered (((vs.search question (RETRIEVER_K * 2)).filter
            fun d => pyIn fs d.source || d.filename == fs).take RETRIEVER_K) := by
  have hfs' : (fs == "") = false := by simpa using hfs
  rcases hfail with h | h <;>
    simp [answer_question, selectDocs, hmeta, hfs', h]

/-- Witness for C6: a store whose exact-filter search returns nothing and
whose unfiltered search yields one matching and one non-matching chunk;
the theorem applied there evaluates to the filtered, truncated answer. -/
theorem answer_question_filter_fallback_witness :
    answer_question "x" (fun _ => []) ⟨"/Base", true, []⟩ (some "a.pdf")
        (some ⟨fun _ _ _ => some [], fun _ _ => [mkDoc "a", mkDoc "b"]⟩) =
      Answer.answered [mkDoc "a"] :=
  (answer_question_filter_fallback "x" (fun _ => []) ⟨"/Base", true, []⟩
      "a.pdf" ⟨fun _ _ _ => some [], fun _ _ => [mkDoc "a", mkDoc "b"]⟩
      (by decide) (by decide) (Or.inr rfl)).trans (by decide)

theorem startsWithSeq_refl (l : List Char) : startsWithSeq l l = true := by
  induction l with
  | nil => rfl
  | cons a as ih => simp [startsWithSeq, ih]

theorem containsSeq_of_startsWithSeq (n h : List Char)
    (hs : startsWithSeq n h = true) : containsSeq n h = true := by
  cases h with
  | nil => simpa [containsSeq] using hs
  | cons b bs => simp [containsSeq, hs]

theorem containsSeq_cons (n t : List Char) (b : Char)
    (hc : containsSeq n t = true) : containsSeq n (b :: t) = true := by
  simp [containsSeq, hc]

theorem containsSeq_append_right (n pre : List Char) :
    containsSeq n (pre ++ n) = true := by
  induction pre with
  | nil => exact containsSeq_of_startsWithSeq n n (startsWithSeq_refl n)
  | cons b bs ih => exact containsSeq_cons n (bs ++ n) b ih

theorem pyIn_append (pre s : String) : pyIn s (pre ++ s) = true := by
  unfold pyIn
  rw [String.data_append]
  exact containsSeq_append_right s.data pre.data

/-- The persist directory contents `_build_vectorstore` manipulates: the
pickled chunk list `chunks.pkl` and the Chroma vector data (modelled as
the list of chunks whose embeddings were persisted). -/
structure PersistDir where
  chunksFile : Option (List Doc)
  vectors : Option (List Doc)
deriving DecidableEq, Repr

/-- Whether `any(persist_dir.iterdir())` holds after the initial `mkdir`. -/
def PersistDir.isNonEmpty (p : PersistDir) : Bool :=
  p.chunksFile.isSome || p.vectors.isSome

/-- Outcome of `_build_vectorstore`: reuse of the existing index (with the
chunk list when `chunks.pkl` loads), a fresh build, a `ValueError`
configuration failure carrying its message, or an embedding-provider
exception propagating out of `Chroma.from_documents`. -/
inductive BuildOutcome where
  | reused (chunks : Option (List Doc))
  | built (chunks : List Doc)
  | configError (msg : String)
  | embeddingError
deriving DecidableEq, Repr

/-- Whether the outcome is a `ValueError` raised by the configuration
checks. -/
def BuildOutcome.isConfigError : BuildOutcome → Bool
  | .configError _ => true
  | _ => false

/-- The configuration error's message (empty for other outcomes). -/
def BuildOutcome.errorMsg : BuildOutcome → String
  | .configError m => m
  | _ => ""

/-- Embedding of `_build_vectorstore(pdf_dir, persist_dir, embeddings)` as a state
transformer on the persist directory. `chunkLoadOk` models whether the
`pickle.load` of an existing `chunks.pkl` succeeds; `loadAndSplit` is the
loader-plus-splitter pipeline on the sorted PDF list; `embed` is
`Chroma.from_documents`, with `none` for an embedding-provider failure.
Following the code, `chunks.pkl` is written before the embedding step. -/
def buildVectorstore (forceReindex : Bool) (persist : PersistDir)
    (pdfDir : PdfDir) (chunkLoadOk : Bool)
    (loadAndSplit : List String → List Doc)
    (embed : List Doc → Option (List Doc)) : PersistDir × BuildOutcome :=
  if !forceReindex && persist.isNonEmpty then
    (persist, .reused (match persist.chunksFile with
      | some cs => if chunkLoadOk then some cs else none
      | none => none))
  else
    let persist1 : PersistDir := if forceReindex then ⟨none, none⟩ else persist
    if !pdfDir.dirExists then
      (persist1, .configError ("Pasta nao encontrada: " ++ pdfDir.resolvedName))
    else if pdfDir.pdfFiles.isEmpty then
      (persist1, .configError ("Nenhum PDF encontrado em " ++ pdfDir.resolvedName))
    else
      let chunks := loadAndSplit pdfDir.pdfFiles
      match embed chunks with
      | none => (⟨some chunks, persist1.vectors⟩, .embeddingError)
      | some vecs => (⟨some chunks, some vecs⟩, .built chunks)

/-- C8: on the rebuild path (forced, or empty/absent persist directory), a
missing corpus directory or one without PDFs makes the build fail with a
configuration error whose message names the offending directory; no index
is returned. -/
theorem buildVectorstore_config_error (forceReindex : Bool)
    (persist : PersistDir) (pdfDir : PdfDir) (chunkLoadOk : Bool)
    (loadAndSplit : List String → List Doc)
    (embed : List Doc → Option (List Doc))
    (hrebuild : forceReindex = true ∨ persist.isNonEmpty = false)
    (hbad : pdfDir.dirExists = false ∨ pdfDir.pdfFiles = []) :
    (buildVectorstore forceReindex persist pdfDir chunkLoadOk loadAndSplit
        embed).2.isConfigError = true ∧
    pyIn pdfDir.resolvedName
      ((buildVectorstore forceReindex persist pdfDir chunkLoadOk loadAndSplit
          embed).2.errorMsg) = true := by
  have hcond : (!forceReindex && persist.isNonEmpty) = false := by
    rcases hrebuild with h | h <;> simp [h]
  rcases hbad with h | h
  · simp [buildVectorstore, hcond, h, BuildOutcome.isConfigError,
      BuildOutcome.errorMsg, pyIn_append]
  · by_cases hd : pdfDir.dirExists <;>
      simp [buildVectorstore, hcond, h, hd, BuildOutcome.isConfigError,
        BuildOutcome.errorMsg, pyIn_append]

set_option maxRecDepth 8000 in
/-- Witness for C8: Scenario C, a forced reindex over an existing corpus
directory holding zero PDFs; the theorem applied there. -/
theorem buildVectorstore_config_error_witness :
    (buildVectorstore true ⟨none, none⟩ ⟨"/Base", true, []⟩ true
        (fun _ => []) (fun _ => some [])).2.isConfigError = true ∧
    pyIn "/Base"
      ((buildVectorstore true ⟨none, none⟩ ⟨"/Base", true, []⟩ true
          (fun _ => []) (fun _ => some [])).2.errorMsg) = true :=
  buildVectorstore_config_error true ⟨none, none⟩ ⟨"/Base", true, []⟩ true
    (fun _ => []) (fun _ => some []) (Or.inl rfl) (Or.inr rfl)

/-- C7 counterexample: a rebuild whose embedding step fails leaves the
persist directory non-empty, holding the chunk list and no vectors, and a
subsequent non-forced open reuses it as a valid index — contradicting the
claim that a build failure never leaves such a state behind. -/
theorem buildVectorstore_embed_fail_cex :
    (buildVectorstore true ⟨none, none⟩ ⟨"/Base", true, ["c.pdf"]⟩ true
        (fun _ => [mkDoc "a"]) (fun _ => none)).2 = .embeddingError ∧
    (buildVectorstore true ⟨none, none⟩ ⟨"/Base", true, ["c.pdf"]⟩ true
        (fun _ => [mkDoc "a"]) (fun _ => none)).1 = ⟨some [mkDoc "a"], none⟩ ∧
    PersistDir.isNonEmpty ⟨some [mkDoc "a"], none⟩ = true ∧
    (buildVectorstore false ⟨some [mkDoc "a"], none⟩ ⟨"/Base", true, ["c.pdf"]⟩
        true (fun _ => []) (fun _ => some [])).2 = .reused (some [mkDoc "a"]) := by
  decide

/-- C7 (amended): the chunk list is written before the vector index, so an
embedding-provider failure during a rebuild surfaces as a build failure but
leaves the persist directory non-empty with the chunk list and no vectors,
and a subsequent non-forced open reuses that directory as an index. -/
theorem buildVectorstore_embed_fail (forceReindex : Bool)
    (persist : PersistDir) (pdfDir : PdfDir) (chunkLoadOk : Bool)
    (loadAndSplit loadAndSplit2 : List String → List Doc)
    (embed embed2 : List Doc → Option (List Doc))
    (hrebuild : forceReindex = true ∨ persist.isNonEmpty = false)
    (hdir : pdfDir.dirExists = true)
    (hpdfs : pdfDir.pdfFiles ≠ [])
    (hembed : embed (loadAndSplit pdfDir.pdfFiles) = none) :
    (buildVectorstore forceReindex persist pdfDir chunkLoadOk loadAndSplit
        embed).2 = .embeddingError ∧
    (buildVectorstore forceReindex persist pdfDir chunkLoadOk loadAndSplit
        embed).1 = ⟨some (loadAndSplit pdfDir.pdfFiles), none⟩ ∧
    (buildVectorstore false
        (buildVectorstore forceReindex persist pdfDir chunkLoadOk loadAndSplit
          embed).1 pdfDir true loadAndSplit2 embed2).2 =
      .reused (some (loadAndSplit pdfDir.pdfFiles)) := by
  have hne : pdfDir.pdfFiles.isEmpty = false := by
    cases hf : pdfDir.pdfFiles with
    | nil => exact absurd hf hpdfs
    | cons a as => simp
  rcases hrebuild with h | h
  · subst h
    refine ⟨?_, ?_, ?_⟩ <;>
      simp [buildVectorstore, hdir, hne, hembed, PersistDir.isNonEmpty]
  · obtain ⟨cf, vec⟩ := persist
    cases cf with
    | some c => simp [PersistDir.isNonEmpty] at h
    | none =>
      cases vec with
      | some v => simp [PersistDir.isNonEmpty] at h
      | none =>
        cases forceReindex <;>
          refine ⟨?_, ?_, ?_⟩ <;>
          simp [buildVectorstore, hdir, hne, hembed, PersistDir.isNonEmpty]

/-- Witness for C7's amended claim: a concrete failing embedding provider;
the theorem applied there. -/
theorem buildVectorstore_embed_fail_witness :
    (buildVectorstore true ⟨none, none⟩ ⟨"/Base", true, ["c.pdf"]⟩ true
        (fun _ => [mkDoc "a"]) (fun _ => none)).2 = .embeddingError ∧
    (buildVectorstore true ⟨none, none⟩ ⟨"/Base", true, ["c.pdf"]⟩ true
        (fun _ => [mkDoc "a"]) (fun _ => none)).1 =
      ⟨some ((fun _ => [mkDoc "a"]) (["c.pdf"] : List String)), none⟩ ∧
    (buildVectorstore false
        (buildVectorstore true ⟨none, none⟩ ⟨"/Base", true, ["c.pdf"]⟩ true
          (fun _ => [mkDoc "a"]) (fun _ => none)).1
        ⟨"/Base", true, ["c.pdf"]⟩ true (fun _ => []) (fun _ => some [])).2 =
      .reused (some ((fun _ => [mkDoc "a"]) (["c.pdf"] : List String))) :=
  buildVectorstore_embed_fail true ⟨none, none⟩ ⟨"/Base", true, ["c.pdf"]⟩
    true (fun _ => [mkDoc "a"]) (fun _ => []) (fun _ => none)
    (fun _ => some []) (Or.inl rfl) rfl (by decide) rfl

end RagCore
